import Mathlib

/-!
Verification development for the telegram-parser-bot repository.

The Python sources are shallowly embedded: the pure control flow of the
multi-strategy member-collection engine (`services/parser.py`,
`EnhancedTelegramParser`), the paginated crawl loops, the entity-resolution
fallbacks (`bot.py`, `real_parse_channel`; `services/parser.py`,
`_resolve_private_channel`), the subscription database operations
(`database.py`) and the handler guards (`bot.py`, `parse_channel_handler`,
`check_subscription`) become Lean functions.  Network and library effects
(Telethon RPCs, asyncio sleeps, SQLite rows) are abstracted as explicit
inputs: pages of users, request outcomes, oracles for `get_entity`, and an
explicit database state.  Timestamps are modelled as integers (seconds);
both the application clock (`datetime.now()`) and the database clock
(`CURRENT_TIMESTAMP`) map to the same instant parameter `now`, and the
SQL string comparison of ISO timestamps is modelled by integer order.
-/

namespace TgBot

/-! ## Configuration (`config/settings.py`, class `Config`)

The Python values come from environment variables with fixed defaults; the
defaults are embedded. -/

def Config.PARSING_BATCH_SIZE : Nat := 200

def Config.MAX_REQUESTS_PER_CHANNEL : Nat := 50

def Config.LIMIT_MESSAGES : Nat := 500

def Config.LIMIT_COMMENTS : Nat := 200

def Config.PRIVATE_CHANNEL_LIMIT : Nat := 500

def Config.MAX_PARTICIPANTS : Nat := 1000

/-! ## User records (`extract_user_data` result dictionaries)

Only the fields the collection engine inspects or mutates are kept: the
numeric Telegram id (used for de-duplication) and the `collect_method` tag
(overwritten by `parse_with_methods` per strategy).  The remaining fields
(username, flags, ...) ride along as an opaque payload and play no role in
any claim. -/

structure UserData where
  id : Nat
  username : String := ""
  collectMethod : String := "unknown"
  deriving Repr, DecidableEq

/-! ## `parse_with_methods` (`services/parser.py`, lines 80-214)

The four strategy calls (`_get_channel_participants`,
`_get_users_from_messages`, `_get_users_from_comments`,
`_get_users_from_reactions`) are abstracted as four input lists `r1..r4`:
whatever list of user dictionaries each strategy would return.  The body is
embedded stage by stage; `invoked` is a ghost trace recording which
strategies were actually run, in execution order (the Python code has no
such variable; it corresponds to the `logger.info("Метод N: ...")` lines).
The Redis cache consulted at the top of the function only replays a result
previously stored by this same function and is not modelled. -/

structure CollectState where
  all : List UserData
  seen : List Nat
  pCount : Nat
  mCount : Nat
  cCount : Nat
  rCount : Nat
  invoked : List String
  deriving Repr, DecidableEq

def initCollect : CollectState := ⟨[], [], 0, 0, 0, 0, []⟩

/-- The per-strategy accumulation loop
(`for user_data in ...: if user_data['id'] not in unique_user_ids: ...`).
Returns the extended `all_participants`, the extended `unique_user_ids`
(kept as an insertion-ordered list; the Python set is only tested for
membership and measured with `len`), and the strategy's appended count. -/
def dedupFold (method : String) : List UserData → List UserData → List Nat →
    List UserData × List Nat × Nat
  | [], all, seen => (all, seen, 0)
  | u :: rest, all, seen =>
    if u.id ∈ seen then
      dedupFold method rest all seen
    else
      let r := dedupFold method rest (all ++ [{u with collectMethod := method}])
        (seen ++ [u.id])
      (r.1, r.2.1, r.2.2 + 1)

/-- Strategy block 1 (line 129, МЕТОД 1): `if 'participants' in methods`. -/
def stage1 (methods : List String) (r1 : List UserData) (st : CollectState) :
    CollectState :=
  if "participants" ∈ methods then
    let r := dedupFold "participants" r1 st.all st.seen
    { st with all := r.1, seen := r.2.1, pCount := st.pCount + r.2.2,
              invoked := st.invoked ++ ["participants"] }
  else st

/-- Strategy block 2 (line 146, МЕТОД 2): `if 'messages' in methods and len(all_participants) < limit`. -/
def stage2 (methods : List String) (limit : Nat) (r2 : List UserData)
    (st : CollectState) : CollectState :=
  if "messages" ∈ methods ∧ st.all.length < limit then
    let r := dedupFold "messages" r2 st.all st.seen
    { st with all := r.1, seen := r.2.1, mCount := st.mCount + r.2.2,
              invoked := st.invoked ++ ["messages"] }
  else st

/-- Strategy block 3 (line 164, МЕТОД 3): `if 'comments' in methods and len(all_participants) < limit`. -/
def stage3 (methods : List String) (limit : Nat) (r3 : List UserData)
    (st : CollectState) : CollectState :=
  if "comments" ∈ methods ∧ st.all.length < limit then
    let r := dedupFold "comments" r3 st.all st.seen
    { st with all := r.1, seen := r.2.1, cCount := st.cCount + r.2.2,
              invoked := st.invoked ++ ["comments"] }
  else st

/-- Strategy block 4 (line 182, МЕТОД 4): `if 'reactions' in methods and len(all_participants) < limit`. -/
def stage4 (methods : List String) (limit : Nat) (r4 : List UserData)
    (st : CollectState) : CollectState :=
  if "reactions" ∈ methods ∧ st.all.length < limit then
    let r := dedupFold "reactions" r4 st.all st.seen
    { st with all := r.1, seen := r.2.1, rCount := st.rCount + r.2.2,
              invoked := st.invoked ++ ["reactions"] }
  else st

structure ParseStats where
  pCount : Nat
  mCount : Nat
  cCount : Nat
  rCount : Nat
  total : Nat
  unique : Nat
  deriving Repr, DecidableEq

structure ParseResult where
  participants : List UserData
  stats : ParseStats
  invoked : List String
  deriving Repr, DecidableEq

/-- `parse_with_methods` success path: the four gated strategy blocks in
order, then `all_participants = all_participants[:limit]`,
`stats['total'] = len(all_participants)`, `stats['unique'] = len(unique_user_ids)`. -/
def parseWithMethods (methods : List String) (limit : Nat)
    (r1 r2 r3 r4 : List UserData) : ParseResult :=
  let st := stage4 methods limit r4 (stage3 methods limit r3
    (stage2 methods limit r2 (stage1 methods r1 initCollect)))
  let trimmed := st.all.take limit
  { participants := trimmed,
    stats := ⟨st.pCount, st.mCount, st.cCount, st.rCount,
              trimmed.length, st.seen.length⟩,
    invoked := st.invoked }

/-! ### Invariants of the accumulation -/

/-- The de-dup set is exactly the ids of the accumulated list, and it has
no duplicates. -/
def CollectInv (st : CollectState) : Prop :=
  st.seen = st.all.map (·.id) ∧ st.seen.Nodup

lemma dedupFold_inv (method : String) :
    ∀ (inc : List UserData) (all : List UserData) (seen : List Nat),
      seen = all.map (·.id) → seen.Nodup →
      (dedupFold method inc all seen).2.1 =
          (dedupFold method inc all seen).1.map (·.id) ∧
        (dedupFold method inc all seen).2.1.Nodup := by
  intro inc
  induction inc with
  | nil => intro all seen h1 h2; simpa [dedupFold] using ⟨h1, h2⟩
  | cons u rest ih =>
    intro all seen h1 h2
    by_cases hmem : u.id ∈ seen
    · simpa [dedupFold, hmem] using ih all seen h1 h2
    · have h1' : seen ++ [u.id] =
          (all ++ [({u with collectMethod := method} : UserData)]).map (fun x => x.id) := by
        rw [List.map_append, ← h1]; rfl
      have h2' : (seen ++ [u.id]).Nodup := by
        simp [List.nodup_append, h2, hmem]
      simpa [dedupFold, hmem] using
        ih (all ++ [{u with collectMethod := method}]) (seen ++ [u.id]) h1' h2'

lemma stage1_inv (methods : List String) (r1 : List UserData)
    (st : CollectState) (h : CollectInv st) : CollectInv (stage1 methods r1 st) := by
  unfold stage1
  split
  · exact dedupFold_inv "participants" r1 st.all st.seen h.1 h.2
  · exact h

lemma stage2_inv (methods : List String) (limit : Nat) (r2 : List UserData)
    (st : CollectState) (h : CollectInv st) :
    CollectInv (stage2 methods limit r2 st) := by
  unfold stage2
  split
  · exact dedupFold_inv "messages" r2 st.all st.seen h.1 h.2
  · exact h

lemma stage3_inv (methods : List String) (limit : Nat) (r3 : List UserData)
    (st : CollectState) (h : CollectInv st) :
    CollectInv (stage3 methods limit r3 st) := by
  unfold stage3
  split
  · exact dedupFold_inv "comments" r3 st.all st.seen h.1 h.2
  · exact h

lemma stage4_inv (methods : List String) (limit : Nat) (r4 : List UserData)
    (st : CollectState) (h : CollectInv st) :
    CollectInv (stage4 methods limit r4 st) := by
  unfold stage4
  split
  · exact dedupFold_inv "reactions" r4 st.all st.seen h.1 h.2
  · exact h

lemma parseWithMethods_inv (methods : List String) (limit : Nat)
    (r1 r2 r3 r4 : List UserData) :
    CollectInv (stage4 methods limit r4 (stage3 methods limit r3
      (stage2 methods limit r2 (stage1 methods r1 initCollect)))) := by
  apply stage4_inv; apply stage3_inv; apply stage2_inv; apply stage1_inv
  constructor <;> simp [initCollect]

lemma mem_if_singleton {α : Type} {m x : α} {c : Prop} [Decidable c]
    (h : m ∈ (if c then [x] else [])) : c ∧ m = x := by
  by_cases hc : c
  · simp [hc] at h; exact ⟨hc, h⟩
  · simp [hc] at h

/-- C1: in every result of `parse_with_methods`, the user ids of the
entries of the returned participants list are pairwise distinct, whatever
subset of the four strategies was requested: a user collected by an
earlier strategy is never appended again by a later one. -/
theorem parseWithMethods_ids_nodup (methods : List String) (limit : Nat)
    (r1 r2 r3 r4 : List UserData) :
    ((parseWithMethods methods limit r1 r2 r3 r4).participants.map
      (fun u => u.id)).Nodup := by
  obtain ⟨hmap, hnodup⟩ := parseWithMethods_inv methods limit r1 r2 r3 r4
  show (((stage4 methods limit r4 (stage3 methods limit r3
    (stage2 methods limit r2 (stage1 methods r1 initCollect)))).all.take limit).map
      (fun u => u.id)).Nodup
  rw [List.map_take]
  exact (List.take_sublist _ _).nodup (hmap ▸ hnodup)

/-- C10: `parse_with_methods` returns at most `limit` participants,
`stats['total']` is the length of the returned list, and
`stats['unique']` (the number of distinct user ids encountered across all
strategies before trimming) is at least `stats['total']`. -/
theorem parseWithMethods_stats_bounds (methods : List String) (limit : Nat)
    (r1 r2 r3 r4 : List UserData) :
    (parseWithMethods methods limit r1 r2 r3 r4).participants.length ≤ limit ∧
      (parseWithMethods methods limit r1 r2 r3 r4).stats.total =
        (parseWithMethods methods limit r1 r2 r3 r4).participants.length ∧
      (parseWithMethods methods limit r1 r2 r3 r4).stats.total ≤
        (parseWithMethods methods limit r1 r2 r3 r4).stats.unique := by
  obtain ⟨hmap, _⟩ := parseWithMethods_inv methods limit r1 r2 r3 r4
  have hseenlen : (stage4 methods limit r4 (stage3 methods limit r3
      (stage2 methods limit r2 (stage1 methods r1 initCollect)))).seen.length =
      (stage4 methods limit r4 (stage3 methods limit r3
      (stage2 methods limit r2 (stage1 methods r1 initCollect)))).all.length := by
    rw [hmap, List.length_map]
  refine ⟨?_, rfl, ?_⟩
  · show ((stage4 methods limit r4 (stage3 methods limit r3
      (stage2 methods limit r2 (stage1 methods r1 initCollect)))).all.take limit).length ≤ limit
    simp [List.length_take]
  · show ((stage4 methods limit r4 (stage3 methods limit r3
      (stage2 methods limit r2 (stage1 methods r1 initCollect)))).all.take limit).length ≤
      (stage4 methods limit r4 (stage3 methods limit r3
      (stage2 methods limit r2 (stage1 methods r1 initCollect)))).seen.length
    rw [hseenlen]
    simp [List.length_take]

/-- C4: `parse_with_methods` runs the strategies in the fixed order
participants, messages, comments, reactions; a strategy runs only if its
name occurs in `methods`, and each of the last three runs only while the
number of participants collected so far is strictly below `limit`.
`invoked` is the ghost execution trace. -/
theorem parseWithMethods_strategy_order (methods : List String) (limit : Nat)
    (r1 r2 r3 r4 : List UserData) :
    let s1 := stage1 methods r1 initCollect
    let s2 := stage2 methods limit r2 s1
    let s3 := stage3 methods limit r3 s2
    let s4 := stage4 methods limit r4 s3
    (parseWithMethods methods limit r1 r2 r3 r4).invoked = s4.invoked ∧
      s1.invoked = (if "participants" ∈ methods then ["participants"] else []) ∧
      s2.invoked = s1.invoked ++
        (if "messages" ∈ methods ∧ s1.all.length < limit then ["messages"] else []) ∧
      s3.invoked = s2.invoked ++
        (if "comments" ∈ methods ∧ s2.all.length < limit then ["comments"] else []) ∧
      s4.invoked = s3.invoked ++
        (if "reactions" ∈ methods ∧ s3.all.length < limit then ["reactions"] else []) ∧
      List.Sublist s4.invoked ["participants", "messages", "comments", "reactions"] ∧
      ∀ m ∈ s4.invoked, m ∈ methods := by
  intro s1 s2 s3 s4
  have h1 : s1.invoked = (if "participants" ∈ methods then ["participants"] else []) := by
    show (stage1 methods r1 initCollect).invoked = _
    by_cases hc : "participants" ∈ methods <;> simp [stage1, initCollect, hc]
  have h2 : s2.invoked = s1.invoked ++
      (if "messages" ∈ methods ∧ s1.all.length < limit then ["messages"] else []) := by
    show (stage2 methods limit r2 s1).invoked = _
    by_cases hc : "messages" ∈ methods ∧ s1.all.length < limit <;> simp [stage2, hc]
  have h3 : s3.invoked = s2.invoked ++
      (if "comments" ∈ methods ∧ s2.all.length < limit then ["comments"] else []) := by
    show (stage3 methods limit r3 s2).invoked = _
    by_cases hc : "comments" ∈ methods ∧ s2.all.length < limit <;> simp [stage3, hc]
  have h4 : s4.invoked = s3.invoked ++
      (if "reactions" ∈ methods ∧ s3.all.length < limit then ["reactions"] else []) := by
    show (stage4 methods limit r4 s3).invoked = _
    by_cases hc : "reactions" ∈ methods ∧ s3.all.length < limit <;> simp [stage4, hc]
  refine ⟨rfl, h1, h2, h3, h4, ?_, ?_⟩
  · rw [h4, h3, h2, h1]
    by_cases hc1 : "participants" ∈ methods <;>
      by_cases hc2 : "messages" ∈ methods ∧ s1.all.length < limit <;>
      by_cases hc3 : "comments" ∈ methods ∧ s2.all.length < limit <;>
      by_cases hc4 : "reactions" ∈ methods ∧ s3.all.length < limit <;>
      simp only [hc1, hc2, hc3, hc4, if_true, if_false, List.nil_append,
        List.append_nil, List.append_assoc, if_pos, if_neg, not_false_iff] <;>
      decide
  · intro m hm
    rw [h4, h3, h2, h1] at hm
    rcases List.mem_append.mp hm with hm' | hm'
    · rcases List.mem_append.mp hm' with hm'' | hm''
      · rcases List.mem_append.mp hm'' with hm3 | hm3
        · obtain ⟨hc, he⟩ := mem_if_singleton hm3
          exact he ▸ hc
        · obtain ⟨hc, he⟩ := mem_if_singleton hm3
          exact he ▸ hc.1
      · obtain ⟨hc, he⟩ := mem_if_singleton hm''
        exact he ▸ hc.1
    · obtain ⟨hc, he⟩ := mem_if_singleton hm'
      exact he ▸ hc.1

/-- Witness for the strategy-order theorem at a concrete invocation:
with methods `["participants", "reactions"]` both named strategies run,
in that order. -/
theorem parseWithMethods_strategy_order_witness :
    (parseWithMethods ["participants", "reactions"] 3
        [⟨1, "", ""⟩] [] [] [⟨2, "", ""⟩]).invoked = ["participants", "reactions"] ∧
      "participants" ∈ (["participants", "reactions"] : List String) := by
  have h := parseWithMethods_strategy_order ["participants", "reactions"] 3
    [⟨1, "", ""⟩] [] [] [⟨2, "", ""⟩]
  exact ⟨by decide, h.2.2.2.2.2.2 "participants" (by decide)⟩


/-! ## `_get_channel_participants` (`services/parser.py`, lines 229-268)

The paginated crawl is embedded as a small-step loop over an explicit
sequence of request outcomes.  Each loop iteration issues one
`GetParticipantsRequest`; the outcome is either a page of users (a
successful request, possibly empty), a `FloodWaitError` carrying a wait
time, or another exception.  The `await asyncio.sleep` calls are recorded
in the ghost field `slept`; `issued` is a ghost counter of successful
requests (pages received, empty or not).  The precondition of claim C5 -
every individual request eventually returns - is captured by the outcome
sequence being a finite list. -/

inductive ReqOutcome where
  | page (users : List UserData)
  | flood (seconds : Nat)
  | fail
  deriving Repr, DecidableEq

structure CrawlSt where
  offset : Nat
  reqCount : Nat
  participants : List UserData
  slept : Nat
  stopped : Bool
  issued : Nat
  deriving Repr, DecidableEq

def initCrawl : CrawlSt := { offset := 0, reqCount := 0, participants := [],
                             slept := 0, stopped := false, issued := 0 }

/-- Loop guard: `while offset < limit and request_count < Config.MAX_REQUESTS_PER_CHANNEL`
(line 235); `stopped` records the `break` statements. -/
def crawlGuard (limit maxReq : Nat) (s : CrawlSt) : Bool :=
  decide (s.offset < limit) && decide (s.reqCount < maxReq) && !s.stopped

/-- One loop iteration of `_get_channel_participants`.  A non-empty page
appends its extracted users, advances `offset` by the batch size and bumps
`request_count`; an empty page breaks; `except FloodWaitError as e:` only
performs `await asyncio.sleep(e.seconds)` and loops again; any other
exception breaks. -/
def crawlStep (batch : Nat) (extract : UserData -> Option UserData)
    (s : CrawlSt) (o : ReqOutcome) : CrawlSt :=
  match o with
  | .page users =>
    if users.isEmpty then { s with stopped := true, issued := s.issued + 1 }
    else
      { s with participants := s.participants ++ users.filterMap extract,
               offset := s.offset + batch,
               reqCount := s.reqCount + 1,
               issued := s.issued + 1 }
  | .flood w => { s with slept := s.slept + w }
  | .fail => { s with stopped := true }

/-- The crawl loop run against a finite sequence of request outcomes. -/
def runCrawl (batch limit maxReq : Nat) (extract : UserData -> Option UserData) :
    List ReqOutcome -> CrawlSt -> CrawlSt
  | [], s => s
  | o :: rest, s =>
    if crawlGuard limit maxReq s then
      runCrawl batch limit maxReq extract rest (crawlStep batch extract s o)
    else s

/-- Top-level `_get_channel_participants` with the `Config` constants. -/
def getChannelParticipants (limit : Nat) (extract : UserData -> Option UserData)
    (outcomes : List ReqOutcome) : CrawlSt :=
  runCrawl Config.PARSING_BATCH_SIZE limit Config.MAX_REQUESTS_PER_CHANNEL
    extract outcomes initCrawl

/-! ### The inner crawl of `real_parse_channel` (`bot.py`, lines 1870-1942)

A second, slightly different loop: `while True`, offset advanced by the
page length, stop on empty page, on reaching `MAX_PARTICIPANTS`, or on a
short page; its `except FloodWaitError` arm also just sleeps and
`continue`s. -/

structure BotCrawlSt where
  offset : Nat
  participants : List UserData
  slept : Nat
  stopped : Bool
  deriving Repr, DecidableEq

/-- One iteration of the `while True` loop in `real_parse_channel`. -/
def botCrawlStep (batchLimit maxParticipants : Nat) (s : BotCrawlSt)
    (o : ReqOutcome) : BotCrawlSt :=
  match o with
  | .page users =>
    if users.isEmpty then { s with stopped := true }
    else
      let s1 := { s with participants := s.participants ++ users }
      if maxParticipants <= s1.participants.length then { s1 with stopped := true }
      else if users.length < batchLimit then { s1 with stopped := true }
      else { s1 with offset := s.offset + users.length }
  | .flood w => { s with slept := s.slept + w }
  | .fail => { s with stopped := true }

/-! ### Crawl lemmas -/

lemma runCrawl_participants_mono (batch limit maxReq : Nat)
    (extract : UserData → Option UserData) :
    ∀ (outcomes : List ReqOutcome) (s : CrawlSt),
      ∃ t, (runCrawl batch limit maxReq extract outcomes s).participants =
        s.participants ++ t := by
  intro outcomes
  induction outcomes with
  | nil => intro s; exact ⟨[], by simp [runCrawl]⟩
  | cons o rest ih =>
    intro s
    by_cases hg : crawlGuard limit maxReq s = true
    · obtain ⟨t, ht⟩ := ih (crawlStep batch extract s o)
      cases o with
      | page users =>
        by_cases he : users.isEmpty = true
        · refine ⟨t, ?_⟩
          rw [runCrawl]
          simp only [hg, if_true]
          rw [ht]
          simp [crawlStep, he]
        · refine ⟨users.filterMap extract ++ t, ?_⟩
          rw [runCrawl]
          simp only [hg, if_true]
          rw [ht]
          simp [crawlStep, he]
      | flood w =>
        refine ⟨t, ?_⟩
        rw [runCrawl]
        simp only [hg, if_true]
        rw [ht]
        simp [crawlStep]
      | fail =>
        refine ⟨t, ?_⟩
        rw [runCrawl]
        simp only [hg, if_true]
        rw [ht]
        simp [crawlStep]
    · refine ⟨[], ?_⟩
      rw [runCrawl]
      simp [hg]


/-- Invariant of the `_get_channel_participants` loop: the request counter
never exceeds the maximum, every successful request was issued under the
guard, and the offset is exactly the batch size times the number of
counted (non-empty) pages. -/
def CrawlInv (batch maxReq : Nat) (s : CrawlSt) : Prop :=
  s.reqCount ≤ maxReq ∧ s.issued ≤ maxReq ∧
    (s.stopped = false → s.issued ≤ s.reqCount) ∧ s.offset = batch * s.reqCount

lemma crawlStep_inv (batch limit maxReq : Nat) (extract : UserData → Option UserData)
    (s : CrawlSt) (o : ReqOutcome) (hg : crawlGuard limit maxReq s = true)
    (h : CrawlInv batch maxReq s) : CrawlInv batch maxReq (crawlStep batch extract s o) := by
  obtain ⟨hc, hi, his, ho⟩ := h
  have hguard : s.offset < limit ∧ s.reqCount < maxReq ∧ s.stopped = false := by
    simp [crawlGuard] at hg; exact ⟨hg.1.1, hg.1.2, hg.2⟩
  obtain ⟨-, hcnt, hstop⟩ := hguard
  have hik : s.issued ≤ s.reqCount := his hstop
  cases o with
  | page users =>
    by_cases he : users.isEmpty = true
    · refine ⟨?_, ?_, ?_, ?_⟩
      · simpa [crawlStep, he] using hc
      · simp [crawlStep, he]; omega
      · simp [crawlStep, he]
      · simpa [crawlStep, he] using ho
    · refine ⟨?_, ?_, ?_, ?_⟩
      · simp [crawlStep, he]; omega
      · simp [crawlStep, he]; omega
      · intro hs
        simp [crawlStep, he]
        omega
      · simp [crawlStep, he]
        rw [ho]; ring
  | flood w =>
    exact ⟨hc, hi, fun hs => his (by simpa [crawlStep] using hs),
      by simpa [crawlStep] using ho⟩
  | fail => exact ⟨hc, hi, by simp [crawlStep], by simpa [crawlStep] using ho⟩

lemma runCrawl_inv (batch limit maxReq : Nat) (extract : UserData → Option UserData) :
    ∀ (outcomes : List ReqOutcome) (s : CrawlSt), CrawlInv batch maxReq s →
      CrawlInv batch maxReq (runCrawl batch limit maxReq extract outcomes s) := by
  intro outcomes
  induction outcomes with
  | nil => intro s h; simpa [runCrawl] using h
  | cons o rest ih =>
    intro s h
    rw [runCrawl]
    by_cases hg : crawlGuard limit maxReq s = true
    · simp only [hg, if_true]
      exact ih _ (crawlStep_inv batch limit maxReq extract s o hg h)
    · simp only [hg, if_false]
      exact h

/-- C2: a `FloodWaitError` during the paginated member-listing crawl only
sleeps for the carried number of seconds: the loop state (offset, request
counter, collected participants, stop flag) is untouched, the guard still
holds, the loop goes on with the remaining outcomes from the same offset,
and across any run the collected participants are only ever extended,
never discarded.  The same holds for the flood arm of the
`real_parse_channel` loop in `bot.py`. -/
theorem floodwait_backoff_preserves_crawl (batch limit maxReq : Nat)
    (extract : UserData → Option UserData) (s : CrawlSt) (sb : BotCrawlSt)
    (w batchLimit maxParticipants : Nat) (rest : List ReqOutcome) :
    crawlStep batch extract s (.flood w) = { s with slept := s.slept + w } ∧
      crawlGuard limit maxReq (crawlStep batch extract s (.flood w)) =
        crawlGuard limit maxReq s ∧
      runCrawl batch limit maxReq extract (.flood w :: rest) s =
        (if crawlGuard limit maxReq s then
          runCrawl batch limit maxReq extract rest { s with slept := s.slept + w }
        else s) ∧
      (∀ outcomes, ∃ t,
        (runCrawl batch limit maxReq extract outcomes s).participants =
          s.participants ++ t) ∧
      botCrawlStep batchLimit maxParticipants sb (.flood w) =
        { sb with slept := sb.slept + w } := by
  refine ⟨rfl, rfl, rfl, ?_, rfl⟩
  intro outcomes
  exact runCrawl_participants_mono batch limit maxReq extract outcomes s

/-- C5: the direct member-listing crawl terminates on every (finite)
outcome sequence - the model is a total function, and the claim's
precondition that each request eventually returns makes the sequence
finite.  It issues at most `Config.MAX_REQUESTS_PER_CHANNEL` successful
requests, the offset is `Config.PARSING_BATCH_SIZE` times the number of
counted pages, and the loop performs no further request once the guard
fails (offset at the limit, request counter at the maximum, or a break
after an empty page or an exception). -/
theorem getChannelParticipants_request_bound (limit : Nat)
    (extract : UserData → Option UserData) (outcomes : List ReqOutcome)
    (s : CrawlSt) (o : ReqOutcome) (rest : List ReqOutcome) :
    (getChannelParticipants limit extract outcomes).issued ≤
        Config.MAX_REQUESTS_PER_CHANNEL ∧
      (getChannelParticipants limit extract outcomes).reqCount ≤
        Config.MAX_REQUESTS_PER_CHANNEL ∧
      (getChannelParticipants limit extract outcomes).offset =
        Config.PARSING_BATCH_SIZE *
          (getChannelParticipants limit extract outcomes).reqCount ∧
      crawlGuard limit Config.MAX_REQUESTS_PER_CHANNEL s =
        (decide (s.offset < limit) &&
          decide (s.reqCount < Config.MAX_REQUESTS_PER_CHANNEL) && !s.stopped) ∧
      (crawlGuard limit Config.MAX_REQUESTS_PER_CHANNEL s = false →
        runCrawl Config.PARSING_BATCH_SIZE limit Config.MAX_REQUESTS_PER_CHANNEL
          extract (o :: rest) s = s) := by
  have hinv : CrawlInv Config.PARSING_BATCH_SIZE Config.MAX_REQUESTS_PER_CHANNEL
      (getChannelParticipants limit extract outcomes) := by
    apply runCrawl_inv
    exact ⟨by simp [initCrawl], by simp [initCrawl], by simp [initCrawl], by simp [initCrawl]⟩
  refine ⟨hinv.2.1, hinv.1, hinv.2.2.2, rfl, ?_⟩
  intro hg
  rw [runCrawl]
  simp [hg]

/-- Witness for the request-bound theorem: a concrete two-page crawl stays
within the request budget, and with the guard already false (the stop flag
set) a pending outcome is not processed. -/
theorem getChannelParticipants_request_bound_witness :
    (getChannelParticipants 400 some
        [ReqOutcome.page [⟨1, "", ""⟩], ReqOutcome.page [⟨2, "", ""⟩]]).issued ≤
      Config.MAX_REQUESTS_PER_CHANNEL ∧
    runCrawl Config.PARSING_BATCH_SIZE 400 Config.MAX_REQUESTS_PER_CHANNEL some
        [ReqOutcome.fail] { initCrawl with stopped := true } =
      { initCrawl with stopped := true } := by
  have h := getChannelParticipants_request_bound 400 some
    [ReqOutcome.page [⟨1, "", ""⟩], ReqOutcome.page [⟨2, "", ""⟩]]
    { initCrawl with stopped := true } ReqOutcome.fail []
  exact ⟨h.1, h.2.2.2.2 (by decide)⟩


/-! ## Entity resolution

`real_parse_channel` (`bot.py`, lines 1823-1847) resolves the channel
through up to three `client.get_entity` attempts.  The Telethon call is
abstracted as an oracle `env : String → Option Entity` mapping the
attempted string to the resolved entity (`none` = the call raises).  The
`FloodWaitError` arms around each attempt sleep and repeat the very same
call, which under a fixed oracle returns the same value, so the flood
retries are transparent here.  Note the third attempt of the source -
commented "Пробуем как invite link" - is literally `client.get_entity(channel)`
again, the same call as the first attempt; no join request is made. -/

structure Entity where
  id : Nat
  deriving Repr, DecidableEq

/-- The fallback chain of `real_parse_channel`: `get_entity(channel)`,
then `get_entity` on the @-prefixed input, then `get_entity(channel)` again. -/
def resolveEntity (env : String → Option Entity) (channel : String) : Option Entity :=
  match env channel with
  | some e => some e
  | none =>
    match env ("@" ++ channel) with
    | some e => some e
    | none => env channel

/-- Modelled from the spec: the fallback chain claim C3 describes, in
which the third strategy actually performs an invite-link join.  This
definition follows the spec's words and exists only to be compared with
`resolveEntity`, the definition taken from the source. -/
def resolveEntityClaimed (env : String → Option Entity)
    (join : String → Option Entity) (channel : String) : Option Entity :=
  match env channel with
  | some e => some e
  | none =>
    match env ("@" ++ channel) with
    | some e => some e
    | none => join channel

/-! ### `_resolve_private_channel` (`services/parser.py`, lines 355-373)

Used by `parse_with_methods` when `is_private`: one `get_entity` attempt;
only on `ChannelPrivateError` and only when the input contains `t.me/+`
does it join via the invite link (`channel_input.split('+')[-1]`);
otherwise the error is re-raised. -/

inductive ResolveErr where
  | channelPrivate
  | other (msg : String)
  deriving Repr, DecidableEq

/-- Bool test that `needle` is an initial segment of the first list. -/
def seqStartsWith : List Char → List Char → Bool
  | _, [] => true
  | [], _ :: _ => false
  | a :: as, b :: bs => (a = b) && seqStartsWith as bs

/-- Bool test that `needle` occurs contiguously in the first list. -/
def seqContains : List Char → List Char → Bool
  | [], needle => needle.isEmpty
  | c :: rest, needle => seqStartsWith (c :: rest) needle || seqContains rest needle

/-- Python `'t.me/+' in channel_input` (substring containment). -/
def hasInviteMarker (s : String) : Bool := seqContains s.data "t.me/+".data

/-- Python `channel_input.split('+')[-1]`: the suffix after the last `+`,
or the whole string when no `+` occurs. -/
def inviteHash (s : String) : String :=
  ⟨(s.data.reverse.takeWhile (fun c => c ≠ '+')).reverse⟩

def resolvePrivateChannel (getEnt : String → Except ResolveErr Entity)
    (join : String → Except ResolveErr Entity) (channelInput : String) :
    Except ResolveErr Entity :=
  match getEnt channelInput with
  | .ok e => .ok e
  | .error .channelPrivate =>
    if hasInviteMarker channelInput then
      join ("https://t.me/+" ++ inviteHash channelInput)
    else .error .channelPrivate
  | .error err => .error err

/-- Counterexample to C3: with an oracle on which every `get_entity` call
fails but an invite-link join would succeed, `real_parse_channel`'s
resolution fails anyway - its third attempt repeats `get_entity(channel)`
instead of joining, so the parse does not succeed even though the third
strategy of the claim (the invite-link join) succeeds. -/
theorem resolveEntity_no_join_counterexample :
    resolveEntity (fun _ => none) "+abcdef" = none ∧
      resolveEntityClaimed (fun _ => none) (fun _ => some ⟨1⟩) "+abcdef" =
        some ⟨1⟩ :=
  ⟨rfl, rfl⟩

/-- C3 (amended): `real_parse_channel` falls back through
`get_entity(channel)`, `get_entity('@' + channel)`, and
`get_entity(channel)` once more - the third attempt repeats the first and
performs no invite-link join - and resolution fails exactly when both
forms fail; separately, `_resolve_private_channel` joins via the invite
link only when its single `get_entity` attempt raises
`ChannelPrivateError` and the input contains `t.me/+`, and otherwise
propagates the error. -/
theorem resolveEntity_fallback_amended (env : String → Option Entity)
    (channel : String) (getEnt : String → Except ResolveErr Entity)
    (join : String → Except ResolveErr Entity) (inp : String) (e : Entity) :
    resolveEntity env channel =
        (env channel).orElse (fun _ => env ("@" ++ channel)) ∧
      (resolveEntity env channel = none ↔
        env channel = none ∧ env ("@" ++ channel) = none) ∧
      (getEnt inp = .ok e → resolvePrivateChannel getEnt join inp = .ok e) ∧
      (getEnt inp = .error .channelPrivate → hasInviteMarker inp = true →
        resolvePrivateChannel getEnt join inp =
          join ("https://t.me/+" ++ inviteHash inp)) ∧
      (getEnt inp = .error .channelPrivate → hasInviteMarker inp = false →
        resolvePrivateChannel getEnt join inp = .error .channelPrivate) := by
  refine ⟨?_, ?_, ?_, ?_, ?_⟩
  · cases h1 : env channel with
    | some e1 => simp [resolveEntity, h1, Option.orElse]
    | none =>
      cases h2 : env ("@" ++ channel) with
      | some e2 => simp [resolveEntity, h1, h2, Option.orElse]
      | none => simp [resolveEntity, h1, h2, Option.orElse]
  · cases h1 : env channel with
    | some e1 => simp [resolveEntity, h1]
    | none =>
      cases h2 : env ("@" ++ channel) with
      | some e2 => simp [resolveEntity, h1, h2]
      | none => simp [resolveEntity, h1, h2]
  · intro hg; simp [resolvePrivateChannel, hg]
  · intro hg hm; simp [resolvePrivateChannel, hg, hm]
  · intro hg hm; simp [resolvePrivateChannel, hg, hm]

/-- Witness: a private channel whose input carries a `t.me/+` invite link
is resolved through the join call. -/
theorem resolveEntity_fallback_amended_witness :
    resolvePrivateChannel (fun _ => .error .channelPrivate)
        (fun _ => .ok ⟨7⟩) "https://t.me/+abc" = .ok ⟨7⟩ := by
  have h := resolveEntity_fallback_amended (fun _ => none) "x"
    (fun _ => Except.error ResolveErr.channelPrivate)
    (fun _ => Except.ok ⟨7⟩) "https://t.me/+abc" ⟨7⟩
  exact h.2.2.2.1 rfl (by decide)


/-! ## Database model (`database.py`)

The three tables the claims touch (`users`, `subscriptions`,
`usage_stats`) are lists of rows; only the columns the claims inspect are
kept.  `expires_at` is an instant (seconds): `datetime.now()`,
`CURRENT_TIMESTAMP` and the stored ISO strings all denote instants on one
clock, and the SQL comparison `expires_at > CURRENT_TIMESTAMP` is the
order on instants. -/

structure UserRow where
  userId : Nat
  username : String
  firstName : String
  lastName : String
  isAdmin : Bool := false
  deriving Repr, DecidableEq

structure SubRow where
  userId : Nat
  planType : String
  status : String
  expiresAt : Int
  deriving Repr, DecidableEq

structure StatsRow where
  userId : Nat
  date : Int
  parsingCount : Nat
  membersParsed : Nat
  totalRequests : Nat
  deriving Repr, DecidableEq

structure DBState where
  users : List UserRow
  subs : List SubRow
  usageStats : List StatsRow
  deriving Repr, DecidableEq

/-- `SELECT * FROM users WHERE user_id = ?` (`get_user`, lines 265-273). -/
def getUser (db : DBState) (uid : Nat) : Option UserRow :=
  db.users.find? (fun u => u.userId == uid)

/-- The WHERE clause of `get_user_subscription`:
`user_id = ? AND status = 'active' AND expires_at > CURRENT_TIMESTAMP`. -/
def subMatches (uid : Nat) (now : Int) (r : SubRow) : Bool :=
  r.userId == uid && r.status == "active" && decide (now < r.expiresAt)

/-- `get_user_subscription` (lines 294-303): the matching row with the
greatest `expires_at` (`ORDER BY expires_at DESC LIMIT 1`), if any. -/
def getUserSubscription (db : DBState) (uid : Nat) (now : Int) : Option SubRow :=
  (db.subs.filter (subMatches uid now)).argmax (fun r => r.expiresAt)

/-- `get_or_create_user` (lines 220-263): an existing user is returned
unchanged (the `last_activity` touch has no modelled column); a new user
is inserted together with a 3-day `trial` subscription and a zeroed
`usage_stats` row. -/
def getOrCreateUser (db : DBState) (uid : Nat)
    (username firstName lastName : String) (now : Int) : DBState × UserRow :=
  match getUser db uid with
  | some u => (db, u)
  | none =>
    let u : UserRow := { userId := uid, username := username,
                         firstName := firstName, lastName := lastName }
    let sub : SubRow := { userId := uid, planType := "trial",
                          status := "active", expiresAt := now + 3 * 86400 }
    let st : StatsRow := { userId := uid, date := now, parsingCount := 0,
                           membersParsed := 0, totalRequests := 0 }
    ({ users := db.users ++ [u], subs := db.subs ++ [sub],
       usageStats := db.usageStats ++ [st] }, u)

/-- `create_user` (line 150) delegates to `get_or_create_user`. -/
def createUser (db : DBState) (uid : Nat)
    (username firstName lastName : String) (now : Int) : DBState × UserRow :=
  getOrCreateUser db uid username firstName lastName now

/-- Python `(expires_at - datetime.now()).days`: `timedelta.days` is the
floor of the difference measured in days. -/
def daysLeft (expiresAt now : Int) : Int := (expiresAt - now).fdiv 86400

structure SubStatus where
  hasAccess : Bool
  subscription : Option SubRow
  deriving Repr, DecidableEq

/-- The tail of `check_subscription` (`bot.py`, lines 246-261): deny when
`days_left < 0`, grant otherwise. -/
def evalSubscription (now : Int) (sub : SubRow) : SubStatus :=
  if daysLeft sub.expiresAt now < 0 then { hasAccess := false, subscription := some sub }
  else { hasAccess := true, subscription := some sub }

/-- `check_subscription` (`bot.py`, lines 225-261).  When no subscription
row is found and the user does not exist yet, the user is created (which
grants the trial subscription) and the lookup is retried once. -/
def checkSubscription (db : DBState) (uid : Nat) (now : Int) : DBState × SubStatus :=
  match getUserSubscription db uid now with
  | some sub => (db, evalSubscription now sub)
  | none =>
    match getUser db uid with
    | some _ => (db, { hasAccess := false, subscription := none })
    | none =>
      let db1 := (createUser db uid "user" "Новый" "Пользователь" now).1
      match getUserSubscription db1 uid now with
      | some sub => (db1, evalSubscription now sub)
      | none => (db1, { hasAccess := false, subscription := none })

/-! ### Database lemmas -/

lemma getUserSubscription_sound {db : DBState} {uid : Nat} {now : Int} {r : SubRow}
    (h : getUserSubscription db uid now = some r) :
    r ∈ db.subs ∧ r.userId = uid ∧ r.status = "active" ∧ now < r.expiresAt := by
  have hmem : r ∈ (db.subs.filter (subMatches uid now)) :=
    List.argmax_mem (Option.mem_def.mpr h)
  rw [List.mem_filter] at hmem
  obtain ⟨h1, h2⟩ := hmem
  simp only [subMatches, Bool.and_eq_true, beq_iff_eq, decide_eq_true_eq] at h2
  exact ⟨h1, h2.1.1, h2.1.2, h2.2⟩

lemma getUserSubscription_exists (uid : Nat) (now : Int) {db : DBState} {r : SubRow}
    (hr : r ∈ db.subs) (hm : subMatches uid now r = true) :
    ∃ s, getUserSubscription db uid now = some s := by
  unfold getUserSubscription
  cases h : (db.subs.filter (subMatches uid now)).argmax (fun r => r.expiresAt) with
  | some s => exact ⟨s, rfl⟩
  | none =>
    rw [List.argmax_eq_none] at h
    have hin : r ∈ db.subs.filter (subMatches uid now) := List.mem_filter.mpr ⟨hr, hm⟩
    rw [h] at hin
    cases hin

lemma daysLeft_nonneg {e now : Int} (h : now < e) : 0 ≤ daysLeft e now :=
  Int.fdiv_nonneg (by omega) (by norm_num)

lemma evalSubscription_access {now : Int} {sub : SubRow} (h : now < sub.expiresAt) :
    (evalSubscription now sub).hasAccess = true := by
  unfold evalSubscription
  rw [if_neg (by have := daysLeft_nonneg h; omega)]


/-- C6: `get_user_subscription` returns only rows with status `'active'`
whose stored `expires_at` compares greater than the current database
timestamp; given such a row, `check_subscription` denies access exactly
when the computed `days_left` is negative; and a user has parsing access
exactly when - after the possible first-contact user creation - they hold
an active subscription row whose expiry lies in the future. -/
theorem checkSubscription_access_iff (db : DBState) (uid : Nat) (now : Int) :
    (∀ r, getUserSubscription db uid now = some r →
        r.userId = uid ∧ r.status = "active" ∧ now < r.expiresAt) ∧
      (∀ r, getUserSubscription db uid now = some r →
        ((checkSubscription db uid now).2.hasAccess = false ↔
          daysLeft r.expiresAt now < 0)) ∧
      ((checkSubscription db uid now).2.hasAccess = true ↔
        ∃ r ∈ (checkSubscription db uid now).1.subs,
          r.userId = uid ∧ r.status = "active" ∧ now < r.expiresAt) := by
  refine ⟨?_, ?_, ?_⟩
  · intro r hr
    exact (getUserSubscription_sound hr).2
  · intro r hr
    have hck : checkSubscription db uid now = (db, evalSubscription now r) := by
      simp only [checkSubscription, hr]
    rw [hck]
    unfold evalSubscription
    by_cases hd : daysLeft r.expiresAt now < 0
    · rw [if_pos hd]; simpa using hd
    · rw [if_neg hd]; simpa using hd
  · cases hsub : getUserSubscription db uid now with
    | some r =>
      have hsound := getUserSubscription_sound hsub
      have hck : checkSubscription db uid now = (db, evalSubscription now r) := by
        simp only [checkSubscription, hsub]
      rw [hck]
      exact iff_of_true (evalSubscription_access hsound.2.2.2)
        ⟨r, hsound.1, hsound.2⟩
    | none =>
      cases huser : getUser db uid with
      | some u =>
        have hck : checkSubscription db uid now =
            (db, ⟨false, none⟩) := by
          simp only [checkSubscription, hsub, huser]
        rw [hck]
        refine iff_of_false (by simp) ?_
        rintro ⟨r, hrmem, h1, h2, h3⟩
        obtain ⟨s, hs⟩ := getUserSubscription_exists uid now hrmem
          (by simp [subMatches, h1, h2, h3])
        rw [hsub] at hs
        exact Option.noConfusion hs
      | none =>
        have htrial : (⟨uid, "trial", "active", now + 3 * 86400⟩ : SubRow) ∈
            (createUser db uid "user" "Новый" "Пользователь" now).1.subs := by
          simp only [createUser, getOrCreateUser, huser]
          simp
        obtain ⟨s, hs⟩ := getUserSubscription_exists uid now htrial
          (by simp [subMatches])
        have hsound := getUserSubscription_sound hs
        have hck : checkSubscription db uid now =
            ((createUser db uid "user" "Новый" "Пользователь" now).1,
              evalSubscription now s) := by
          simp only [checkSubscription, hsub, huser, hs]
        rw [hck]
        exact iff_of_true (evalSubscription_access hsound.2.2.2)
          ⟨s, hsound.1, hsound.2⟩

/-- Witness for the access criterion: for a user holding an active
subscription expiring 100000 seconds from now, the denial criterion on
the found row is exactly a negative `days_left`. -/
theorem checkSubscription_access_iff_witness :
    ((checkSubscription ⟨[⟨1, "u", "f", "l", false⟩],
        [⟨1, "daily", "active", 100000⟩], []⟩ 1 0).2.hasAccess = false ↔
      daysLeft 100000 0 < 0) := by
  have h := checkSubscription_access_iff
    ⟨[⟨1, "u", "f", "l", false⟩], [⟨1, "daily", "active", 100000⟩], []⟩ 1 0
  exact h.2.1 ⟨1, "daily", "active", 100000⟩ (by decide)

/-- C9: for a user id not yet in the users table, `get_or_create_user`
inserts the user row together with an active 3-day `trial` subscription
and a zeroed `usage_stats` row, and immediately afterwards
`check_subscription` reports access without any purchase. -/
theorem getOrCreateUser_trial (db : DBState) (uid : Nat)
    (un fn ln : String) (now : Int) (h : getUser db uid = none) :
    (∃ r ∈ (getOrCreateUser db uid un fn ln now).1.subs,
        r.userId = uid ∧ r.planType = "trial" ∧ r.status = "active" ∧
          r.expiresAt = now + 3 * 86400) ∧
      (∃ u ∈ (getOrCreateUser db uid un fn ln now).1.users, u.userId = uid) ∧
      (∃ srow ∈ (getOrCreateUser db uid un fn ln now).1.usageStats,
        srow.userId = uid ∧ srow.parsingCount = 0 ∧ srow.membersParsed = 0 ∧
          srow.totalRequests = 0) ∧
      (checkSubscription (getOrCreateUser db uid un fn ln now).1 uid
        now).2.hasAccess = true := by
  have htrial : (⟨uid, "trial", "active", now + 3 * 86400⟩ : SubRow) ∈
      (getOrCreateUser db uid un fn ln now).1.subs := by
    simp only [getOrCreateUser, h]
    simp
  obtain ⟨s, hs⟩ := getUserSubscription_exists uid now htrial (by simp [subMatches])
  have hsound := getUserSubscription_sound hs
  have hck : checkSubscription (getOrCreateUser db uid un fn ln now).1 uid now =
      ((getOrCreateUser db uid un fn ln now).1, evalSubscription now s) := by
    simp only [checkSubscription, hs]
  refine ⟨⟨_, htrial, rfl, rfl, rfl, rfl⟩, ?_, ?_, ?_⟩
  · refine ⟨⟨uid, un, fn, ln, false⟩, ?_, rfl⟩
    simp only [getOrCreateUser, h]
    simp
  · refine ⟨⟨uid, now, 0, 0, 0⟩, ?_, rfl, rfl, rfl, rfl⟩
    simp only [getOrCreateUser, h]
    simp
  · rw [hck]
    exact evalSubscription_access hsound.2.2.2

/-- Witness: the very first contact of user 42 on an empty database
creates the trial subscription and yields access. -/
theorem getOrCreateUser_trial_witness :
    (checkSubscription (getOrCreateUser ⟨[], [], []⟩ 42 "u" "f" "l" 0).1 42
      0).2.hasAccess = true :=
  (getOrCreateUser_trial ⟨[], [], []⟩ 42 "u" "f" "l" 0 rfl).2.2.2


/-! ## `parse_channel_handler` (`bot.py`, lines 1697-1766)

The guard sequence before a parse is started: no Telethon session - turn
away; non-admin, non-demo user failing `check_subscription` - turn away;
otherwise run the demo parse when demo mode is on, else the real parse.
The four Boolean inputs abstract `session_manager.is_authorized`,
`db.is_admin`, `context.user_data['demo_mode']` and
`check_subscription(...)['has_access']`. -/

inductive ParseAction where
  | deniedNoSession
  | deniedNoSubscription
  | demoParse
  | realParse
  deriving Repr, DecidableEq

def parseChannelHandler (isAuthorized isAdmin demoMode hasAccess : Bool) :
    ParseAction :=
  if !isAuthorized then .deniedNoSession
  else if !isAdmin && !demoMode && !hasAccess then .deniedNoSubscription
  else if demoMode then .demoParse
  else .realParse

/-- C7: the real (non-demo) scraping job starts only for a user with an
authorized session who is an administrator or passes the subscription
check; an authorized non-admin without demo mode and without access is
turned away before `real_parse_channel` is reached. -/
theorem realParse_requires_auth_and_access (a ad d acc : Bool) :
    (parseChannelHandler a ad d acc = .realParse ↔
        a = true ∧ d = false ∧ (ad = true ∨ acc = true)) ∧
      (a = true → ad = false → d = false → acc = false →
        parseChannelHandler a ad d acc = .deniedNoSubscription) := by
  cases a <;> cases ad <;> cases d <;> cases acc <;> decide

/-- Witness: an authorized non-admin, non-demo user without access is
turned away with the subscription denial. -/
theorem realParse_requires_auth_and_access_witness :
    parseChannelHandler true false false false = .deniedNoSubscription :=
  (realParse_requires_auth_and_access true false false false).2 rfl rfl rfl rfl

/-! ## Error taxonomy (`services/parser.py`, lines 216-227;
`services/telegram_client.py`, lines 637-658)

`parse_with_methods` ends in four `except` arms - `FloodWaitError`,
`ChannelPrivateError`, `UsernameNotOccupiedError`, bare `Exception` -
each of which logs under its category and re-raises the exception
unchanged; the caller `parse_channel_input` catches everything and edits
the status message with the error text. -/

inductive PError where
  | floodWait (seconds : Nat)
  | channelPrivate
  | usernameNotOccupied
  | generic (msg : String)
  deriving Repr, DecidableEq

inductive ErrorCategory where
  | rateLimited
  | privateChannel
  | notFound
  | genericFailure
  deriving Repr, DecidableEq

/-- The `except` ladder of `parse_with_methods`: the category the arm
logs under, paired with the re-raised exception.  Dispatch follows
Python's top-to-bottom arm order. -/
def handleParseError (e : PError) : ErrorCategory × PError :=
  match e with
  | .floodWait s => (.rateLimited, .floodWait s)
  | .channelPrivate => (.privateChannel, .channelPrivate)
  | .usernameNotOccupied => (.notFound, .usernameNotOccupied)
  | .generic m => (.genericFailure, .generic m)

/-- Python `str(e)` for the four exception shapes. -/
def errorText (e : PError) : String :=
  match e with
  | .floodWait s => "FloodWaitError: " ++ toString s
  | .channelPrivate => "ChannelPrivateError"
  | .usernameNotOccupied => "UsernameNotOccupiedError"
  | .generic m => m

/-- The caller's `except Exception` arm: every propagated error becomes
one chat message embedding the error text. -/
def reportParseFailure : Option PError → Option String
  | none => none
  | some e => some ("Произошла ошибка! " ++ errorText e)

/-- C8: every parse failure is re-raised unchanged by the `except`
ladder, is classified into exactly one of the four categories
rate-limited / private / not-found / generic - each category arising from
exactly the corresponding exception - and the caller surfaces it as a
chat message. -/
theorem parse_error_taxonomy (e : PError) :
    (handleParseError e).2 = e ∧
      ((handleParseError e).1 = .rateLimited ↔ ∃ s, e = .floodWait s) ∧
      ((handleParseError e).1 = .privateChannel ↔ e = .channelPrivate) ∧
      ((handleParseError e).1 = .notFound ↔ e = .usernameNotOccupied) ∧
      ((handleParseError e).1 = .genericFailure ↔ ∃ m, e = .generic m) ∧
      ((handleParseError e).1 = .rateLimited ∨
        (handleParseError e).1 = .privateChannel ∨
        (handleParseError e).1 = .notFound ∨
        (handleParseError e).1 = .genericFailure) ∧
      (reportParseFailure (some e)).isSome = true := by
  cases e <;> simp [handleParseError, reportParseFailure]

end TgBot
